import Mathlib

/-!
Shallow embedding of the WebSocket matching and signal-relay logic of
`src/server.js` (anonchatsgs).  Connections are identified by `Nat` keys
standing for the `ws` object identities used as keys of the JS `Map`.
The transport readiness (`ws.readyState === WebSocket.OPEN`) is modelled
by an environment predicate `openW : Nat → Bool` passed to every
operation that may send.
-/

namespace AnonChat

/-- The `STATES` object of server.js (lines 53-58). -/
inductive ConnState
  | idle
  | searching
  | connecting
  | connected
deriving DecidableEq

/-- The per-connection record stored in the `clients` map (lines 75-80):
`{ id, name, state, partner }`; `partner` is a reference to another ws key. -/
structure ClientData where
  id : Nat
  name : String
  state : ConnState
  partner : Option Nat
deriving DecidableEq

/-- `Map.get`: first entry with the given key. -/
def mget (m : List (Nat × ClientData)) (k : Nat) : Option ClientData :=
  match m with
  | [] => none
  | (k', v) :: rest => if k' = k then some v else mget rest k

/-- `Map.set`: replace the entry for the key, or append it. -/
def mset (m : List (Nat × ClientData)) (k : Nat) (v : ClientData) : List (Nat × ClientData) :=
  match m with
  | [] => [(k, v)]
  | (k', v') :: rest => if k' = k then (k, v) :: rest else (k', v') :: mset rest k v

/-- `Map.delete`: remove the entry for the key. -/
def mdel (m : List (Nat × ClientData)) (k : Nat) : List (Nat × ClientData) :=
  m.filter (fun p => p.1 ≠ k)

/-- The mutable server-side registry: the `clients` map (line 60) and the
`waitingUser` slot (line 61). -/
structure ServerState where
  clients : List (Nat × ClientData)
  waitingUser : Option Nat
deriving DecidableEq

def initialState : ServerState := { clients := [], waitingUser := none }

/-- Messages the server sends to clients. A relayed signal envelope is kept
verbatim as an opaque payload. -/
inductive Msg
  | matched (initiator : Bool) (partnerName : String)
  | partnerLeft
  | errorMsg (message : String)
  | signalEnvelope (payload : String)
deriving DecidableEq

/-- Observable effects of an operation: a frame sent to a ws, or a ws closed
by the server. -/
inductive Event
  | sent (dest : Nat) (msg : Msg)
  | closedConn (ws : Nat)
deriving DecidableEq

/-- `sendJSON` (lines 172-176): sends only when the recipient transport is open. -/
def sendJSON (openW : Nat → Bool) (ws : Nat) (m : Msg) : List Event :=
  if openW ws then [Event.sent ws m] else []

/-- JS `name || "Stranger"` (line 110): `undefined` and the empty string are
falsy and replaced by "Stranger". -/
def defaultName : Option String → String
  | none => "Stranger"
  | some s => if s = "" then "Stranger" else s

/-- `handleJoin` (lines 107-144). -/
def handleJoin (openW : Nat → Bool) (ws : Nat) (name : Option String)
    (s : ServerState) : ServerState × List Event :=
  match mget s.clients ws with
  | none => (s, [])
  | some client =>
    if client.state = ConnState.searching then (s, [])
    else
      let client1 : ClientData :=
        { client with name := defaultName name, state := ConnState.searching }
      let s1 : ServerState := { s with clients := mset s.clients ws client1 }
      match s1.waitingUser with
      | some partner =>
        if partner = ws then ({ s1 with waitingUser := some ws }, [])
        else
          match mget s1.clients partner with
          | none => ({ s1 with waitingUser := some ws }, [])
          | some partnerData =>
            if partnerData.state = ConnState.searching then
              let client2 : ClientData :=
                { client1 with state := ConnState.connecting, partner := some partner }
              let partnerData2 : ClientData :=
                { partnerData with state := ConnState.connecting, partner := some ws }
              ({ clients := mset (mset s1.clients ws client2) partner partnerData2,
                 waitingUser := none },
               sendJSON openW ws (Msg.matched true partnerData.name) ++
                 sendJSON openW partner (Msg.matched false client1.name))
            else ({ s1 with waitingUser := some ws }, [])
      | none => ({ s1 with waitingUser := some ws }, [])

/-- `handleSignal` (lines 146-150): forwards the envelope verbatim to the
partner only when the partner transport is open; otherwise nothing happens. -/
def handleSignal (openW : Nat → Bool) (ws : Nat) (payload : String)
    (s : ServerState) : ServerState × List Event :=
  match mget s.clients ws with
  | none => (s, [])
  | some client =>
    match client.partner with
    | some p => if openW p then (s, sendJSON openW p (Msg.signalEnvelope payload)) else (s, [])
    | none => (s, [])

/-- The inline `connected` handler (line 92): `client.state = STATES.CONNECTED`. -/
def handleConnected (ws : Nat) (s : ServerState) : ServerState × List Event :=
  match mget s.clients ws with
  | none => (s, [])
  | some client =>
    ({ s with clients := mset s.clients ws { client with state := ConnState.connected } }, [])

/-- `handleDisconnect` (lines 152-167). -/
def handleDisconnect (openW : Nat → Bool) (ws : Nat)
    (s : ServerState) : ServerState × List Event :=
  match mget s.clients ws with
  | none => (s, [])
  | some client =>
    let w1 : Option Nat := if s.waitingUser = some ws then none else s.waitingUser
    match client.partner with
    | some p =>
      match mget s.clients p with
      | some partnerData =>
        ({ clients := mdel (mset s.clients p { partnerData with partner := none }) ws,
           waitingUser := w1 },
         sendJSON openW p Msg.partnerLeft)
      | none => ({ clients := mdel s.clients ws, waitingUser := w1 }, [])
    | none => ({ clients := mdel s.clients ws, waitingUser := w1 }, [])

/-- A received transport frame, after the JSON.parse attempt: `invalid` is an
unparseable frame, `unknown` a well-formed frame whose `type` is none of
join / signal / connected. -/
inductive Frame
  | invalid
  | join (name : Option String)
  | signal (payload : String)
  | connectedMsg
  | unknown (ty : String)
deriving DecidableEq

/-- The `ws.on("message")` handler (lines 84-96).  An unparseable frame gets an
error reply through a raw `ws.send`, NOT through `sendJSON`, so it is emitted
whether or not the sender transport is open.  An unknown type falls through
all the `else if` branches and does nothing. -/
def onMessage (openW : Nat → Bool) (ws : Nat) (f : Frame)
    (s : ServerState) : ServerState × List Event :=
  match f with
  | Frame.invalid => (s, [Event.sent ws (Msg.errorMsg "Invalid payload")])
  | Frame.join name => handleJoin openW ws name s
  | Frame.signal payload => handleSignal openW ws payload s
  | Frame.connectedMsg => handleConnected ws s
  | Frame.unknown _ => (s, [])

/-- `wss.on("connection")` (lines 63-102): a disallowed origin is closed;
otherwise the registry gains a fresh record `{ id, "Anonymous", idle, null }`. -/
def handleConnection (allowedOrigin : Bool) (ws : Nat)
    (s : ServerState) : ServerState × List Event :=
  if allowedOrigin then
    let fresh : ClientData :=
      { id := ws, name := "Anonymous", state := ConnState.idle, partner := none }
    ({ s with clients := mset s.clients ws fresh }, [])
  else (s, [Event.closedConn ws])

/-- One registry operation, as dispatched by the event handlers. -/
inductive Op
  | connect (ws : Nat)
  | msg (ws : Nat) (f : Frame)
  | close (ws : Nat)
deriving DecidableEq

def step (openW : Nat → Bool) (op : Op) (s : ServerState) : ServerState × List Event :=
  match op with
  | Op.connect ws => handleConnection true ws s
  | Op.msg ws f => onMessage openW ws f s
  | Op.close ws => handleDisconnect openW ws s

def run (openW : Nat → Bool) (ops : List Op) (s : ServerState) : ServerState :=
  match ops with
  | [] => s
  | op :: rest => run openW rest (step openW op s).1

/-- A transport predicate under which every connection is open. -/
def openTrue : Nat → Bool := fun _ => true

/-! ### Map lemmas -/

theorem mget_mset (m : List (Nat × ClientData)) (k : Nat) (v : ClientData) (a : Nat) :
    mget (mset m k v) a = if k = a then some v else mget m a := by
  induction m with
  | nil => simp [mset, mget]
  | cons e rest ih =>
    obtain ⟨k', v'⟩ := e
    by_cases h : k' = k
    · subst h
      by_cases h2 : k' = a <;> simp [mset, mget, h2, ih]
    · by_cases h2 : k' = a
      · subst h2
        have hka : ¬k = k' := fun hh => h hh.symm
        simp [mset, mget, h, hka]
      · simp [mset, mget, h, h2, ih]

theorem mdel_cons (k1 : Nat) (v1 : ClientData) (m : List (Nat × ClientData)) (k : Nat) :
    mdel ((k1, v1) :: m) k = if k1 = k then mdel m k else (k1, v1) :: mdel m k := by
  by_cases h : k1 = k <;> simp [mdel, List.filter_cons, h]

theorem mget_mdel (m : List (Nat × ClientData)) (k a : Nat) :
    mget (mdel m k) a = if a = k then none else mget m a := by
  induction m with
  | nil => simp [mdel, mget]
  | cons e rest ih =>
    obtain ⟨k', v'⟩ := e
    rw [mdel_cons]
    by_cases h : k' = k
    · subst h
      by_cases h2 : a = k'
      · subst h2
        simp [ih]
      · have hka : ¬k' = a := fun hh => h2 hh.symm
        simp [mget, h2, hka, ih]
    · by_cases h2 : k' = a
      · subst h2
        simp [mget, h]
      · simp [mget, h, h2, ih]

/-! ### Branch equations for the handlers -/

/-- The record update performed at lines 110-111 of server.js. -/
def joinUpd (name : Option String) (c : ClientData) : ClientData :=
  { c with name := defaultName name, state := ConnState.searching }

/-- The state in which a joining connection takes the slot. -/
def joinWaitState (ws : Nat) (name : Option String) (s : ServerState) (c : ClientData) :
    ServerState :=
  { clients := mset s.clients ws (joinUpd name c), waitingUser := some ws }

theorem handleJoin_no_client (openW : Nat → Bool) (ws : Nat) (name : Option String)
    (s : ServerState) (h : mget s.clients ws = none) :
    handleJoin openW ws name s = (s, []) := by
  simp [handleJoin, h]

theorem handleJoin_already_searching (openW : Nat → Bool) (ws : Nat) (name : Option String)
    (s : ServerState) (c : ClientData) (hc : mget s.clients ws = some c)
    (hs : c.state = ConnState.searching) :
    handleJoin openW ws name s = (s, []) := by
  simp [handleJoin, hc, hs]

theorem handleJoin_wait_empty (openW : Nat → Bool) (ws : Nat) (name : Option String)
    (s : ServerState) (c : ClientData) (hc : mget s.clients ws = some c)
    (hs : c.state ≠ ConnState.searching) (hw : s.waitingUser = none) :
    handleJoin openW ws name s = (joinWaitState ws name s c, []) := by
  simp [handleJoin, hc, hs, hw, joinWaitState, joinUpd]

theorem handleJoin_wait_self (openW : Nat → Bool) (ws : Nat) (name : Option String)
    (s : ServerState) (c : ClientData) (hc : mget s.clients ws = some c)
    (hs : c.state ≠ ConnState.searching) (hw : s.waitingUser = some ws) :
    handleJoin openW ws name s = (joinWaitState ws name s c, []) := by
  simp [handleJoin, hc, hs, hw, joinWaitState, joinUpd]

theorem handleJoin_wait_stale_gone (openW : Nat → Bool) (ws : Nat) (name : Option String)
    (s : ServerState) (c : ClientData) (w : Nat) (hc : mget s.clients ws = some c)
    (hs : c.state ≠ ConnState.searching) (hw : s.waitingUser = some w) (hne : w ≠ ws)
    (hg : mget s.clients w = none) :
    handleJoin openW ws name s = (joinWaitState ws name s c, []) := by
  have hg2 : mget (mset s.clients ws (joinUpd name c)) w = none := by
    rw [mget_mset, if_neg (fun hh => hne hh.symm), hg]
  simp [handleJoin, hc, hs, hw, hne, joinWaitState, joinUpd] at hg2 ⊢
  simp [hg2]

theorem handleJoin_wait_stale_state (openW : Nat → Bool) (ws : Nat) (name : Option String)
    (s : ServerState) (c : ClientData) (w : Nat) (pd : ClientData)
    (hc : mget s.clients ws = some c) (hs : c.state ≠ ConnState.searching)
    (hw : s.waitingUser = some w) (hne : w ≠ ws)
    (hpd : mget s.clients w = some pd) (hps : pd.state ≠ ConnState.searching) :
    handleJoin openW ws name s = (joinWaitState ws name s c, []) := by
  have hg2 : mget (mset s.clients ws (joinUpd name c)) w = some pd := by
    rw [mget_mset, if_neg (fun hh => hne hh.symm), hpd]
  simp [handleJoin, hc, hs, hw, hne, joinWaitState, joinUpd] at hg2 ⊢
  simp [hg2, hps]

/-- The two records written by a successful pairing (lines 122-128). -/
def pairedJoiner (name : Option String) (c : ClientData) (w : Nat) : ClientData :=
  { c with name := defaultName name, state := ConnState.connecting, partner := some w }

def pairedWaiter (pd : ClientData) (ws : Nat) : ClientData :=
  { pd with state := ConnState.connecting, partner := some ws }

/-- The state after a successful pairing. -/
def joinPairState (ws : Nat) (name : Option String) (s : ServerState) (c : ClientData)
    (w : Nat) (pd : ClientData) : ServerState :=
  { clients := mset (mset (mset s.clients ws (joinUpd name c)) ws (pairedJoiner name c w))
      w (pairedWaiter pd ws),
    waitingUser := none }

theorem handleJoin_pair (openW : Nat → Bool) (ws : Nat) (name : Option String)
    (s : ServerState) (c : ClientData) (w : Nat) (pd : ClientData)
    (hc : mget s.clients ws = some c) (hs : c.state ≠ ConnState.searching)
    (hw : s.waitingUser = some w) (hne : w ≠ ws)
    (hpd : mget s.clients w = some pd) (hps : pd.state = ConnState.searching) :
    handleJoin openW ws name s =
      (joinPairState ws name s c w pd,
       sendJSON openW ws (Msg.matched true pd.name) ++
         sendJSON openW w (Msg.matched false (defaultName name))) := by
  have hg2 : mget (mset s.clients ws (joinUpd name c)) w = some pd := by
    rw [mget_mset, if_neg (fun hh => hne hh.symm), hpd]
  simp [handleJoin, hc, hs, hw, hne, joinPairState, joinUpd, pairedJoiner, pairedWaiter] at hg2 ⊢
  simp [hg2, hps]

theorem handleSignal_fst (openW : Nat → Bool) (ws : Nat) (p : String) (s : ServerState) :
    (handleSignal openW ws p s).1 = s := by
  cases hc : mget s.clients ws with
  | none => simp [handleSignal, hc]
  | some c =>
    cases hp : c.partner with
    | none => simp [handleSignal, hc, hp]
    | some q => by_cases ho : openW q <;> simp [handleSignal, hc, hp, ho]

theorem handleDisconnect_no_client (openW : Nat → Bool) (ws : Nat) (s : ServerState)
    (h : mget s.clients ws = none) :
    handleDisconnect openW ws s = (s, []) := by
  simp [handleDisconnect, h]

/-- The slot after a disconnect (line 156). -/
def slotAfter (ws : Nat) (s : ServerState) : Option Nat :=
  if s.waitingUser = some ws then none else s.waitingUser

theorem handleDisconnect_no_partner (openW : Nat → Bool) (ws : Nat) (s : ServerState)
    (c : ClientData) (hc : mget s.clients ws = some c) (hp : c.partner = none) :
    handleDisconnect openW ws s =
      ({ clients := mdel s.clients ws, waitingUser := slotAfter ws s }, []) := by
  simp [handleDisconnect, hc, hp, slotAfter]

theorem handleDisconnect_partner_gone (openW : Nat → Bool) (ws : Nat) (s : ServerState)
    (c : ClientData) (p : Nat) (hc : mget s.clients ws = some c) (hp : c.partner = some p)
    (hg : mget s.clients p = none) :
    handleDisconnect openW ws s =
      ({ clients := mdel s.clients ws, waitingUser := slotAfter ws s }, []) := by
  simp [handleDisconnect, hc, hp, hg, slotAfter]

theorem handleDisconnect_partner (openW : Nat → Bool) (ws : Nat) (s : ServerState)
    (c : ClientData) (p : Nat) (pd : ClientData)
    (hc : mget s.clients ws = some c) (hp : c.partner = some p)
    (hpd : mget s.clients p = some pd) :
    handleDisconnect openW ws s =
      ({ clients := mdel (mset s.clients p { pd with partner := none }) ws,
         waitingUser := slotAfter ws s },
       sendJSON openW p Msg.partnerLeft) := by
  simp [handleDisconnect, hc, hp, hpd, slotAfter]

theorem mget_mem (m : List (Nat × ClientData)) (a : Nat) (d : ClientData) :
    mget m a = some d → (a, d) ∈ m := by
  induction m with
  | nil => intro h; simp [mget] at h
  | cons e rest ih =>
    obtain ⟨k', v'⟩ := e
    intro h
    by_cases h2 : k' = a
    · subst h2
      simp [mget] at h
      subst h
      exact List.mem_cons_self _ _
    · simp [mget, h2] at h
      exact List.mem_cons_of_mem _ (ih h)

/-! ### Registry invariants -/

/-- Invariant (a) of the spec: partner linkage is reciprocal or absent, never a
dangling one-sided reference. -/
def Reciprocal (s : ServerState) : Prop :=
  ∀ a da b, mget s.clients a = some da → da.partner = some b →
    ∃ db, mget s.clients b = some db ∧ db.partner = some a

/-- A Searching connection holds no partner reference. -/
def SearchingFree (s : ServerState) : Prop :=
  ∀ a da, mget s.clients a = some da → da.state = ConnState.searching → da.partner = none

/-- No connection's partner reference points to the connection itself. -/
def NoSelfPair (s : ServerState) : Prop :=
  ∀ a da, mget s.clients a = some da → da.partner ≠ some a

/-- Executable check of `Reciprocal`, for concrete states. -/
def reciprocalB (m : List (Nat × ClientData)) : Bool :=
  m.all fun e =>
    match e.2.partner with
    | none => true
    | some b =>
      match mget m b with
      | none => false
      | some db => decide (db.partner = some e.1)

theorem reciprocal_of_bool (s : ServerState) (h : reciprocalB s.clients = true) :
    Reciprocal s := by
  intro a da b h1 h2
  have hm : (a, da) ∈ s.clients := mget_mem _ _ _ h1
  have he := List.all_eq_true.mp h _ hm
  simp only [reciprocalB] at he
  rw [h2] at he
  have he2 : (match mget s.clients b with
      | none => false
      | some db => decide (db.partner = some a)) = true := he
  cases hg : mget s.clients b with
  | none => rw [hg] at he2; simp at he2
  | some db =>
    rw [hg] at he2
    simp only [decide_eq_true_eq] at he2
    exact ⟨db, rfl, he2⟩

/-- Executable check of `SearchingFree`. -/
def searchingFreeB (m : List (Nat × ClientData)) : Bool :=
  m.all fun e => decide (e.2.state = ConnState.searching → e.2.partner = none)

theorem searchingFree_of_bool (s : ServerState) (h : searchingFreeB s.clients = true) :
    SearchingFree s := by
  intro a da h1 h2
  have hm : (a, da) ∈ s.clients := mget_mem _ _ _ h1
  have he := List.all_eq_true.mp h _ hm
  simp only [searchingFreeB, decide_eq_true_eq] at he
  exact he h2

/-! ### Preservation lemmas -/

theorem joinUpd_partner (name : Option String) (c : ClientData) :
    (joinUpd name c).partner = c.partner := rfl

theorem joinWaitState_inv (ws : Nat) (name : Option String) (s : ServerState) (c : ClientData)
    (h1 : Reciprocal s) (h2 : SearchingFree s)
    (hc : mget s.clients ws = some c) (hpn : c.partner = none) :
    Reciprocal (joinWaitState ws name s c) ∧ SearchingFree (joinWaitState ws name s c) := by
  constructor
  · intro a da b hga hp
    simp only [joinWaitState] at hga
    rw [mget_mset] at hga
    by_cases haw : ws = a
    · rw [if_pos haw] at hga
      injection hga with hga'
      rw [← hga', joinUpd_partner, hpn] at hp
      cases hp
    · rw [if_neg haw] at hga
      obtain ⟨db, hdb, hbp⟩ := h1 a da b hga hp
      by_cases hbw : ws = b
      · rw [← hbw, hc] at hdb
        injection hdb with hdb'
        rw [← hdb', hpn] at hbp
        cases hbp
      · refine ⟨db, ?_, hbp⟩
        simp only [joinWaitState]
        rw [mget_mset, if_neg hbw]
        exact hdb
  · intro a da hga hst
    simp only [joinWaitState] at hga
    rw [mget_mset] at hga
    by_cases haw : ws = a
    · rw [if_pos haw] at hga
      injection hga with hga'
      rw [← hga', joinUpd_partner]
      exact hpn
    · rw [if_neg haw] at hga
      exact h2 a da hga hst

theorem mget_joinPairState (ws : Nat) (name : Option String) (s : ServerState) (c : ClientData)
    (w : Nat) (pd : ClientData) (a : Nat) :
    mget (joinPairState ws name s c w pd).clients a =
      if w = a then some (pairedWaiter pd ws)
      else if ws = a then some (pairedJoiner name c w)
      else mget s.clients a := by
  simp only [joinPairState]
  rw [mget_mset, mget_mset, mget_mset]
  by_cases hwa : w = a <;> by_cases hwsa : ws = a <;> simp [hwa, hwsa]

theorem joinPairState_inv (ws : Nat) (name : Option String) (s : ServerState) (c : ClientData)
    (w : Nat) (pd : ClientData) (h1 : Reciprocal s) (h2 : SearchingFree s)
    (hc : mget s.clients ws = some c) (hpn : c.partner = none)
    (hne : w ≠ ws) (hpd : mget s.clients w = some pd)
    (hps : pd.state = ConnState.searching) :
    Reciprocal (joinPairState ws name s c w pd) ∧
      SearchingFree (joinPairState ws name s c w pd) := by
  have hpdn : pd.partner = none := h2 w pd hpd hps
  constructor
  · intro a da b hga hp
    rw [mget_joinPairState] at hga
    by_cases hwa : w = a
    · rw [if_pos hwa] at hga
      injection hga with hga'
      rw [← hga'] at hp
      have hb : b = ws := by
        simp only [pairedWaiter] at hp
        injection hp with hp'
        exact hp'.symm
      subst hb
      refine ⟨pairedJoiner name c w, ?_, ?_⟩
      · rw [mget_joinPairState, if_neg hne, if_pos rfl]
      · simp only [pairedJoiner]
        rw [hwa]
    · by_cases hwsa : ws = a
      · rw [if_neg hwa, if_pos hwsa] at hga
        injection hga with hga'
        rw [← hga'] at hp
        have hb : b = w := by
          simp only [pairedJoiner] at hp
          injection hp with hp'
          exact hp'.symm
        subst hb
        refine ⟨pairedWaiter pd ws, ?_, ?_⟩
        · rw [mget_joinPairState, if_pos rfl]
        · simp only [pairedWaiter]
          rw [hwsa]
      · rw [if_neg hwa, if_neg hwsa] at hga
        obtain ⟨db, hdb, hbp⟩ := h1 a da b hga hp
        by_cases hbws : b = ws
        · rw [hbws, hc] at hdb
          injection hdb with hdb'
          rw [← hdb', hpn] at hbp
          cases hbp
        · by_cases hbw : b = w
          · rw [hbw, hpd] at hdb
            injection hdb with hdb'
            rw [← hdb', hpdn] at hbp
            cases hbp
          · refine ⟨db, ?_, hbp⟩
            rw [mget_joinPairState, if_neg (fun hh => hbw hh.symm),
              if_neg (fun hh => hbws hh.symm)]
            exact hdb
  · intro a da hga hst
    rw [mget_joinPairState] at hga
    by_cases hwa : w = a
    · rw [if_pos hwa] at hga
      injection hga with hga'
      rw [← hga'] at hst
      simp [pairedWaiter] at hst
    · by_cases hwsa : ws = a
      · rw [if_neg hwa, if_pos hwsa] at hga
        injection hga with hga'
        rw [← hga'] at hst
        simp [pairedJoiner] at hst
      · rw [if_neg hwa, if_neg hwsa] at hga
        exact h2 a da hga hst

theorem join_preserves (openW : Nat → Bool) (ws : Nat) (name : Option String)
    (s : ServerState) (h1 : Reciprocal s) (h2 : SearchingFree s)
    (hj : ∀ c, mget s.clients ws = some c → c.partner = none) :
    Reciprocal (handleJoin openW ws name s).1 ∧
      SearchingFree (handleJoin openW ws name s).1 := by
  cases hc : mget s.clients ws with
  | none => rw [handleJoin_no_client openW ws name s hc]; exact ⟨h1, h2⟩
  | some c =>
    have hpn : c.partner = none := hj c hc
    by_cases hs : c.state = ConnState.searching
    · rw [handleJoin_already_searching openW ws name s c hc hs]
      exact ⟨h1, h2⟩
    · cases hw : s.waitingUser with
      | none =>
        rw [handleJoin_wait_empty openW ws name s c hc hs hw]
        exact joinWaitState_inv ws name s c h1 h2 hc hpn
      | some w =>
        by_cases hne : w = ws
        · rw [hne] at hw
          rw [handleJoin_wait_self openW ws name s c hc hs hw]
          exact joinWaitState_inv ws name s c h1 h2 hc hpn
        · cases hpd : mget s.clients w with
          | none =>
            rw [handleJoin_wait_stale_gone openW ws name s c w hc hs hw hne hpd]
            exact joinWaitState_inv ws name s c h1 h2 hc hpn
          | some pd =>
            by_cases hps : pd.state = ConnState.searching
            · rw [handleJoin_pair openW ws name s c w pd hc hs hw hne hpd hps]
              exact joinPairState_inv ws name s c w pd h1 h2 hc hpn hne hpd hps
            · rw [handleJoin_wait_stale_state openW ws name s c w pd hc hs hw hne hpd hps]
              exact joinWaitState_inv ws name s c h1 h2 hc hpn

theorem connected_preserves (ws : Nat) (s : ServerState)
    (h1 : Reciprocal s) (h2 : SearchingFree s) :
    Reciprocal (handleConnected ws s).1 ∧ SearchingFree (handleConnected ws s).1 := by
  cases hc : mget s.clients ws with
  | none => simp [handleConnected, hc]; exact ⟨h1, h2⟩
  | some c =>
    simp only [handleConnected, hc]
    constructor
    · intro a da b hga hp
      simp only at hga
      rw [mget_mset] at hga
      by_cases haw : ws = a
      · rw [if_pos haw] at hga
        injection hga with hga'
        rw [← hga'] at hp
        have hcp : c.partner = some b := hp
        obtain ⟨db, hdb, hbp⟩ := h1 ws c b hc hcp
        by_cases hbw : ws = b
        · refine ⟨{ c with state := ConnState.connected }, ?_, ?_⟩
          · rw [mget_mset, if_pos hbw]
          · rw [← hbw, hc] at hdb
            injection hdb with hdb'
            have : c.partner = some ws := hdb' ▸ hbp
            show c.partner = some a
            rw [this, haw]
        · refine ⟨db, ?_, ?_⟩
          · rw [mget_mset, if_neg hbw]; exact hdb
          · rw [← haw]; exact hbp
      · rw [if_neg haw] at hga
        obtain ⟨db, hdb, hbp⟩ := h1 a da b hga hp
        by_cases hbw : ws = b
        · rw [← hbw, hc] at hdb
          injection hdb with hdb'
          refine ⟨{ c with state := ConnState.connected }, ?_, ?_⟩
          · rw [mget_mset, if_pos hbw]
          · show c.partner = some a
            rw [← hdb'] at hbp
            exact hbp
        · refine ⟨db, ?_, hbp⟩
          rw [mget_mset, if_neg hbw]
          exact hdb
    · intro a da hga hst
      simp only at hga
      rw [mget_mset] at hga
      by_cases haw : ws = a
      · rw [if_pos haw] at hga
        injection hga with hga'
        rw [← hga'] at hst
        simp at hst
      · rw [if_neg haw] at hga
        exact h2 a da hga hst

theorem mdel_only_inv (ws : Nat) (s : ServerState) (c : ClientData) (w1 : Option Nat)
    (h1 : Reciprocal s) (h2 : SearchingFree s)
    (hc : mget s.clients ws = some c) (hpn : c.partner = none) :
    Reciprocal { clients := mdel s.clients ws, waitingUser := w1 } ∧
      SearchingFree { clients := mdel s.clients ws, waitingUser := w1 } := by
  constructor
  · intro a da b hga hp
    simp only at hga
    rw [mget_mdel] at hga
    by_cases haw : a = ws
    · rw [if_pos haw] at hga; cases hga
    · rw [if_neg haw] at hga
      obtain ⟨db, hdb, hbp⟩ := h1 a da b hga hp
      by_cases hbw : b = ws
      · rw [hbw, hc] at hdb
        injection hdb with hdb'
        rw [← hdb', hpn] at hbp
        cases hbp
      · refine ⟨db, ?_, hbp⟩
        simp only
        rw [mget_mdel, if_neg hbw]
        exact hdb
  · intro a da hga hst
    simp only at hga
    rw [mget_mdel] at hga
    by_cases haw : a = ws
    · rw [if_pos haw] at hga; cases hga
    · rw [if_neg haw] at hga
      exact h2 a da hga hst

theorem disconnect_preserves (openW : Nat → Bool) (ws : Nat) (s : ServerState)
    (h1 : Reciprocal s) (h2 : SearchingFree s) :
    Reciprocal (handleDisconnect openW ws s).1 ∧
      SearchingFree (handleDisconnect openW ws s).1 := by
  cases hc : mget s.clients ws with
  | none => rw [handleDisconnect_no_client openW ws s hc]; exact ⟨h1, h2⟩
  | some c =>
    cases hp : c.partner with
    | none =>
      rw [handleDisconnect_no_partner openW ws s c hc hp]
      exact mdel_only_inv ws s c _ h1 h2 hc hp
    | some p =>
      obtain ⟨pd, hpd, hpdp⟩ := h1 ws c p hc hp
      rw [handleDisconnect_partner openW ws s c p pd hc hp hpd]
      constructor
      · intro a da b hga hp2
        simp only at hga
        rw [mget_mdel] at hga
        by_cases haw : a = ws
        · rw [if_pos haw] at hga; cases hga
        · rw [if_neg haw] at hga
          rw [mget_mset] at hga
          by_cases hap : p = a
          · rw [if_pos hap] at hga
            injection hga with hga'
            rw [← hga'] at hp2
            simp at hp2
          · rw [if_neg hap] at hga
            obtain ⟨db, hdb, hbp⟩ := h1 a da b hga hp2
            by_cases hbw : b = ws
            · rw [hbw, hc] at hdb
              injection hdb with hdb'
              rw [← hdb', hp] at hbp
              injection hbp with hbp'
              exact absurd hbp' hap
            · by_cases hbp2 : b = p
              · rw [hbp2, hpd] at hdb
                injection hdb with hdb'
                rw [← hdb', hpdp] at hbp
                injection hbp with hbp'
                exact absurd hbp'.symm haw
              · refine ⟨db, ?_, hbp⟩
                simp only
                rw [mget_mdel, if_neg hbw, mget_mset, if_neg (fun hh => hbp2 hh.symm)]
                exact hdb
      · intro a da hga hst
        simp only at hga
        rw [mget_mdel] at hga
        by_cases haw : a = ws
        · rw [if_pos haw] at hga; cases hga
        · rw [if_neg haw] at hga
          rw [mget_mset] at hga
          by_cases hap : p = a
          · rw [if_pos hap] at hga
            injection hga with hga'
            rw [← hga']
          · rw [if_neg hap] at hga
            exact h2 a da hga hst

theorem waitState_noSelf (ws : Nat) (name : Option String) (s : ServerState) (c : ClientData)
    (h : NoSelfPair s) (hc : mget s.clients ws = some c) :
    NoSelfPair (joinWaitState ws name s c) := by
  intro a da hga
  simp only [joinWaitState] at hga
  rw [mget_mset] at hga
  by_cases haw : ws = a
  · rw [if_pos haw] at hga
    injection hga with hga'
    rw [← hga', joinUpd_partner, ← haw]
    exact h ws c hc
  · rw [if_neg haw] at hga
    exact h a da hga

theorem pairState_noSelf (ws : Nat) (name : Option String) (s : ServerState) (c : ClientData)
    (w : Nat) (pd : ClientData) (h : NoSelfPair s) (hne : w ≠ ws) :
    NoSelfPair (joinPairState ws name s c w pd) := by
  intro a da hga
  rw [mget_joinPairState] at hga
  by_cases hwa : w = a
  · rw [if_pos hwa] at hga
    injection hga with hga'
    rw [← hga']
    intro he
    have : some ws = some a := he
    injection this with he'
    exact hne (hwa ▸ he'.symm ▸ rfl)
  · by_cases hwsa : ws = a
    · rw [if_neg hwa, if_pos hwsa] at hga
      injection hga with hga'
      rw [← hga']
      intro he
      have : some w = some a := he
      injection this with he'
      exact hne (he' ▸ hwsa ▸ rfl)
    · rw [if_neg hwa, if_neg hwsa] at hga
      exact h a da hga

theorem join_noSelf (openW : Nat → Bool) (ws : Nat) (name : Option String) (s : ServerState)
    (h : NoSelfPair s) : NoSelfPair (handleJoin openW ws name s).1 := by
  cases hc : mget s.clients ws with
  | none => rw [handleJoin_no_client openW ws name s hc]; exact h
  | some c =>
    by_cases hs : c.state = ConnState.searching
    · rw [handleJoin_already_searching openW ws name s c hc hs]; exact h
    · cases hw : s.waitingUser with
      | none =>
        rw [handleJoin_wait_empty openW ws name s c hc hs hw]
        exact waitState_noSelf ws name s c h hc
      | some w =>
        by_cases hne : w = ws
        · rw [hne] at hw
          rw [handleJoin_wait_self openW ws name s c hc hs hw]
          exact waitState_noSelf ws name s c h hc
        · cases hpd : mget s.clients w with
          | none =>
            rw [handleJoin_wait_stale_gone openW ws name s c w hc hs hw hne hpd]
            exact waitState_noSelf ws name s c h hc
          | some pd =>
            by_cases hps : pd.state = ConnState.searching
            · rw [handleJoin_pair openW ws name s c w pd hc hs hw hne hpd hps]
              exact pairState_noSelf ws name s c w pd h hne
            · rw [handleJoin_wait_stale_state openW ws name s c w pd hc hs hw hne hpd hps]
              exact waitState_noSelf ws name s c h hc

theorem connected_noSelf (ws : Nat) (s : ServerState) (h : NoSelfPair s) :
    NoSelfPair (handleConnected ws s).1 := by
  cases hc : mget s.clients ws with
  | none => simp [handleConnected, hc]; exact h
  | some c =>
    intro a da hga
    simp only [handleConnected, hc] at hga
    rw [mget_mset] at hga
    by_cases haw : ws = a
    · rw [if_pos haw] at hga
      injection hga with hga'
      rw [← hga', ← haw]
      exact h ws c hc
    · rw [if_neg haw] at hga
      exact h a da hga

theorem disconnect_noSelf (openW : Nat → Bool) (ws : Nat) (s : ServerState)
    (h : NoSelfPair s) : NoSelfPair (handleDisconnect openW ws s).1 := by
  cases hc : mget s.clients ws with
  | none => rw [handleDisconnect_no_client openW ws s hc]; exact h
  | some c =>
    cases hp : c.partner with
    | none =>
      rw [handleDisconnect_no_partner openW ws s c hc hp]
      intro a da hga
      simp only at hga
      rw [mget_mdel] at hga
      by_cases haw : a = ws
      · rw [if_pos haw] at hga; cases hga
      · rw [if_neg haw] at hga
        exact h a da hga
    | some p =>
      cases hpd : mget s.clients p with
      | none =>
        rw [handleDisconnect_partner_gone openW ws s c p hc hp hpd]
        intro a da hga
        simp only at hga
        rw [mget_mdel] at hga
        by_cases haw : a = ws
        · rw [if_pos haw] at hga; cases hga
        · rw [if_neg haw] at hga
          exact h a da hga
      | some pd =>
        rw [handleDisconnect_partner openW ws s c p pd hc hp hpd]
        intro a da hga
        simp only at hga
        rw [mget_mdel] at hga
        by_cases haw : a = ws
        · rw [if_pos haw] at hga; cases hga
        · rw [if_neg haw] at hga
          rw [mget_mset] at hga
          by_cases hap : p = a
          · rw [if_pos hap] at hga
            injection hga with hga'
            rw [← hga']
            intro he
            cases he
          · rw [if_neg hap] at hga
            exact h a da hga

theorem noSelfPair_step (openW : Nat → Bool) (op : Op) (s : ServerState)
    (h : NoSelfPair s) : NoSelfPair (step openW op s).1 := by
  cases op with
  | connect ws =>
    intro a da hga
    simp only [step, handleConnection, if_pos] at hga
    rw [mget_mset] at hga
    by_cases haw : ws = a
    · rw [if_pos haw] at hga
      injection hga with hga'
      rw [← hga']
      simp
    · rw [if_neg haw] at hga
      exact h a da hga
  | close ws => exact disconnect_noSelf openW ws s h
  | msg ws f =>
    cases f with
    | invalid => exact h
    | unknown ty => exact h
    | join name => exact join_noSelf openW ws name s h
    | connectedMsg => exact connected_noSelf ws s h
    | signal p =>
      have hst : (step openW (Op.msg ws (Frame.signal p)) s).1 = s :=
        handleSignal_fst openW ws p s
      rw [hst]
      exact h

theorem noSelfPair_run (openW : Nat → Bool) (ops : List Op) (s : ServerState)
    (h : NoSelfPair s) : NoSelfPair (run openW ops s) := by
  induction ops generalizing s with
  | nil => exact h
  | cons op rest ih => exact ih _ (noSelfPair_step openW op s h)

/-! ### The claims -/

/-- Trace used to exhibit a dangling one-sided partner reference: 0 and 1 pair,
2 waits, then the already-paired 0 re-joins and pairs with 2, leaving 1 with
`partner = 0` while 0 points at 2. -/
def trace1 : List Op :=
  [Op.connect 0, Op.connect 1, Op.connect 2,
   Op.msg 0 (Frame.join (some "a")), Op.msg 1 (Frame.join (some "b")),
   Op.msg 2 (Frame.join (some "c")), Op.msg 0 (Frame.join (some "a"))]

/-- Claim C1, counterexample: after the operation sequence `trace1` — which ends
with a `join` from connection 0 while 0 is still paired with 1 — partner linkage
is NOT reciprocal: 1 holds a dangling one-sided reference to 0. -/
theorem C1_counterexample : ¬ Reciprocal (run openTrue trace1 initialState) := by
  intro h
  obtain ⟨db, hdb, hbp⟩ :=
    h 1 ⟨1, "b", ConnState.connecting, some 0⟩ 0 (by decide) rfl
  have h0 : mget (run openTrue trace1 initialState).clients 0 =
      some ⟨0, "a", ConnState.connecting, some 2⟩ := by decide
  rw [h0] at hdb
  injection hdb with hdb'
  rw [← hdb'] at hbp
  exact absurd hbp (by decide)

/-- Claim C1 (amended): after every registry operation other than a connection
accept (join, signal, connected, disconnect), partner linkage stays reciprocal
or absent — provided it was reciprocal before, every Searching connection was
unpaired, and the operation is not a `join` issued by a connection that still
holds a partner reference.  (A join from a still-paired connection can break
reciprocity, see the counterexample.) -/
theorem C1_reciprocal_after_ops (openW : Nat → Bool) (op : Op) (s : ServerState)
    (h1 : Reciprocal s) (h2 : SearchingFree s)
    (hnc : ∀ ws, op ≠ Op.connect ws)
    (hj : ∀ ws name c, op = Op.msg ws (Frame.join name) →
        mget s.clients ws = some c → c.partner = none) :
    Reciprocal (step openW op s).1 ∧ SearchingFree (step openW op s).1 := by
  cases op with
  | connect ws => exact absurd rfl (hnc ws)
  | close ws => exact disconnect_preserves openW ws s h1 h2
  | msg ws f =>
    cases f with
    | invalid => exact ⟨h1, h2⟩
    | unknown ty => exact ⟨h1, h2⟩
    | join name =>
      exact join_preserves openW ws name s h1 h2 (fun c hc => hj ws name c rfl hc)
    | connectedMsg => exact connected_preserves ws s h1 h2
    | signal p =>
      have hst : (step openW (Op.msg ws (Frame.signal p)) s).1 = s :=
        handleSignal_fst openW ws p s
      rw [hst]
      exact ⟨h1, h2⟩

/-- The registry state with 0 waiting (Searching) and 1 freshly connected. -/
def waitState01 : ServerState :=
  run openTrue [Op.connect 0, Op.connect 1, Op.msg 0 (Frame.join (some "a"))] initialState

/-- Claim C1, witness: the amended preservation theorem applied to the concrete
state `waitState01` and the join of connection 1 (which holds no partner). -/
theorem C1_witness :
    Reciprocal (step openTrue (Op.msg 1 (Frame.join (some "b"))) waitState01).1 ∧
      SearchingFree (step openTrue (Op.msg 1 (Frame.join (some "b"))) waitState01).1 :=
  C1_reciprocal_after_ops openTrue (Op.msg 1 (Frame.join (some "b"))) waitState01
    (reciprocal_of_bool _ (by decide))
    (searchingFree_of_bool _ (by decide))
    (fun ws h => by cases h)
    (fun ws name c heq hc => by
      cases heq
      have h1 : mget waitState01.clients 1 =
          some ⟨1, "Anonymous", ConnState.idle, none⟩ := by decide
      rw [h1] at hc
      injection hc with hc'
      rw [← hc'])

/-- Claim C2, counterexample: connection 0 joins first and waits in the slot;
when 1 joins and the pairing fires, the previously-waiting connection 0 receives
`initiator = false` and the new arrival 1 receives `initiator = true` — the
opposite of the claimed deterministic assignment. -/
theorem C2_counterexample :
    waitState01.waitingUser = some 0 ∧
      (step openTrue (Op.msg 1 (Frame.join (some "b"))) waitState01).2 =
        [Event.sent 1 (Msg.matched true "a"), Event.sent 0 (Msg.matched false "b")] := by
  constructor
  · decide
  · decide

/-- Claim C2 (amended): whenever a join pairs two connections whose transports
are open, each side receives exactly one `matched` notification carrying the
other side's display name, exactly one of the two `initiator` flags is true,
and the assignment is deterministic — the NEW arrival (the joining connection)
is the initiator, the previously-waiting slot occupant gets `initiator = false`. -/
theorem C2_matched_events (openW : Nat → Bool) (ws : Nat) (name : Option String)
    (s : ServerState) (c : ClientData) (w : Nat) (pd : ClientData)
    (hc : mget s.clients ws = some c) (hs : c.state ≠ ConnState.searching)
    (hw : s.waitingUser = some w) (hne : w ≠ ws)
    (hpd : mget s.clients w = some pd) (hps : pd.state = ConnState.searching)
    (ho1 : openW ws = true) (ho2 : openW w = true) :
    (handleJoin openW ws name s).2 =
      [Event.sent ws (Msg.matched true pd.name),
       Event.sent w (Msg.matched false (defaultName name))] := by
  rw [handleJoin_pair openW ws name s c w pd hc hs hw hne hpd hps]
  simp [sendJSON, ho1, ho2]

/-- Claim C2, witness: the amended theorem applied to the concrete pairing of 1
with the waiting 0. -/
theorem C2_witness :
    (handleJoin openTrue 1 (some "b") waitState01).2 =
      [Event.sent 1 (Msg.matched true "a"), Event.sent 0 (Msg.matched false "b")] :=
  C2_matched_events openTrue 1 (some "b") waitState01
    ⟨1, "Anonymous", ConnState.idle, none⟩ 0 ⟨0, "a", ConnState.searching, none⟩
    (by decide) (by decide) (by decide) (by decide) (by decide) (by decide) rfl rfl

/-- Claim C3: for every sequence of registry operations (connections, joins,
signals, connected acks, disconnects) starting from the empty registry, no
connection is ever paired with itself, and the MatchSlot holds at most one
waiting connection at any time. -/
theorem C3_no_self_pairing (openW : Nat → Bool) (ops : List Op) :
    NoSelfPair (run openW ops initialState) ∧
      (∀ a b, (run openW ops initialState).waitingUser = some a →
        (run openW ops initialState).waitingUser = some b → a = b) := by
  constructor
  · refine noSelfPair_run openW ops initialState ?_
    intro a da h
    simp [initialState, mget] at h
  · intro a b ha hb
    rw [ha] at hb
    injection hb

/-- Claim C4, counterexample: in the final state of `trace1`, connection 1 holds
a dangling reference to 0 (0 is paired with 2).  When 0 then disconnects, the
registry still references the departed connection: 1's partner field keeps
pointing at the removed 0, contradicting "no registry state references the
departed connection afterwards". -/
theorem C4_counterexample :
    mget (handleDisconnect openTrue 0 (run openTrue trace1 initialState)).1.clients 0 =
        none ∧
      mget (handleDisconnect openTrue 0 (run openTrue trace1 initialState)).1.clients 1 =
        some ⟨1, "b", ConnState.connecting, some 0⟩ := by
  constructor
  · decide
  · decide

/-- Claim C4 (amended): provided partner linkage is reciprocal beforehand, the
departing connection is not self-paired and its partner's transport (if any) is
open, `disconnect` clears the MatchSlot iff it referenced the connection; if a
partner exists, that partner's reference is nulled and it receives exactly one
`partner-left` notification; the registry entry is removed, and afterwards no
slot and no partner field references the departed connection.  (Without prior
reciprocity a third connection's dangling reference survives, see the
counterexample.) -/
theorem C4_disconnect (openW : Nat → Bool) (ws : Nat) (s : ServerState) (c : ClientData)
    (hInv : Reciprocal s) (hc : mget s.clients ws = some c)
    (hself : c.partner ≠ some ws)
    (hopen : ∀ p, c.partner = some p → openW p = true) :
    (s.waitingUser = some ws → (handleDisconnect openW ws s).1.waitingUser = none) ∧
      (s.waitingUser ≠ some ws →
        (handleDisconnect openW ws s).1.waitingUser = s.waitingUser) ∧
      (∀ p, c.partner = some p →
        (∃ pd, mget (handleDisconnect openW ws s).1.clients p = some pd ∧
          pd.partner = none) ∧
        (handleDisconnect openW ws s).2 = [Event.sent p Msg.partnerLeft]) ∧
      (c.partner = none → (handleDisconnect openW ws s).2 = []) ∧
      mget (handleDisconnect openW ws s).1.clients ws = none ∧
      (handleDisconnect openW ws s).1.waitingUser ≠ some ws ∧
      (∀ a da, mget (handleDisconnect openW ws s).1.clients a = some da →
        da.partner ≠ some ws) := by
  cases hp : c.partner with
  | none =>
    rw [handleDisconnect_no_partner openW ws s c hc hp]
    refine ⟨?_, ?_, ?_, ?_, ?_, ?_, ?_⟩
    · intro h; simp [slotAfter, h]
    · intro h; simp [slotAfter, h]
    · intro p hp2; cases hp2
    · intro _; rfl
    · simp only; rw [mget_mdel, if_pos rfl]
    · simp only [slotAfter]
      by_cases h : s.waitingUser = some ws
      · simp [h]
      · simp [h]
    · intro a da hga hda
      simp only at hga
      rw [mget_mdel] at hga
      by_cases haw : a = ws
      · rw [if_pos haw] at hga; cases hga
      · rw [if_neg haw] at hga
        obtain ⟨db, hdb, hbp⟩ := hInv a da ws hga hda
        rw [hc] at hdb
        injection hdb with hdb'
        rw [← hdb', hp] at hbp
        cases hbp
  | some p =>
    have hpw : p ≠ ws := fun hh => hself (hh ▸ hp)
    obtain ⟨pd, hpd, hpdp⟩ := hInv ws c p hc hp
    rw [handleDisconnect_partner openW ws s c p pd hc hp hpd]
    refine ⟨?_, ?_, ?_, ?_, ?_, ?_, ?_⟩
    · intro h; simp [slotAfter, h]
    · intro h; simp [slotAfter, h]
    · intro p' hp2
      injection hp2 with hp2'
      subst hp2'
      constructor
      · refine ⟨{ pd with partner := none }, ?_, rfl⟩
        simp only
        rw [mget_mdel, if_neg hpw, mget_mset, if_pos rfl]
      · simp [sendJSON, hopen p hp]
    · intro h; cases h
    · simp only; rw [mget_mdel, if_pos rfl]
    · simp only [slotAfter]
      by_cases h : s.waitingUser = some ws
      · simp [h]
      · simp [h]
    · intro a da hga hda
      simp only at hga
      rw [mget_mdel] at hga
      by_cases haw : a = ws
      · rw [if_pos haw] at hga; cases hga
      · rw [if_neg haw] at hga
        rw [mget_mset] at hga
        by_cases hap : p = a
        · rw [if_pos hap] at hga
          injection hga with hga'
          rw [← hga'] at hda
          cases hda
        · rw [if_neg hap] at hga
          obtain ⟨db, hdb, hbp⟩ := hInv a da ws hga hda
          rw [hc] at hdb
          injection hdb with hdb'
          rw [← hdb', hp] at hbp
          injection hbp with hbp'
          exact hap hbp'

/-- The registry state in which 0 and 1 are a reciprocal pair. -/
def pairState01 : ServerState :=
  run openTrue
    [Op.connect 0, Op.connect 1, Op.msg 0 (Frame.join (some "a")),
     Op.msg 1 (Frame.join (some "b"))] initialState

/-- Claim C4, witness: the amended theorem applied to the disconnect of 0 from
the reciprocal pair 0-1 with all transports open. -/
theorem C4_witness :
    (∃ pd, mget (handleDisconnect openTrue 0 pairState01).1.clients 1 = some pd ∧
        pd.partner = none) ∧
      (handleDisconnect openTrue 0 pairState01).2 = [Event.sent 1 Msg.partnerLeft] :=
  (C4_disconnect openTrue 0 pairState01 ⟨0, "a", ConnState.connecting, some 1⟩
    (reciprocal_of_bool _ (by decide)) (by decide) (by decide)
    (fun p hp => by cases hp; rfl)).2.2.1 1 rfl

/-- Claim C5: a `signal` from a connection with a partner is forwarded verbatim
to the partner when the partner's transport is open; when the transport is not
open, or no partner exists, nothing is delivered and no error is produced; the
registry state is never changed by a signal. -/
theorem C5_signal_relay (openW : Nat → Bool) (ws : Nat) (payload : String)
    (s : ServerState) (c : ClientData) (hc : mget s.clients ws = some c) :
    (handleSignal openW ws payload s).1 = s ∧
      (∀ p, c.partner = some p → openW p = true →
        (handleSignal openW ws payload s).2 =
          [Event.sent p (Msg.signalEnvelope payload)]) ∧
      (∀ p, c.partner = some p → openW p = false →
        (handleSignal openW ws payload s).2 = []) ∧
      (c.partner = none → (handleSignal openW ws payload s).2 = []) := by
  refine ⟨handleSignal_fst openW ws payload s, ?_, ?_, ?_⟩
  · intro p hp ho
    simp [handleSignal, hc, hp, ho, sendJSON]
  · intro p hp ho
    simp [handleSignal, hc, hp, ho]
  · intro hp
    simp [handleSignal, hc, hp]

/-- Claim C5, witness: connection 0 of the pair 0-1 relays an envelope to 1. -/
theorem C5_witness :
    (handleSignal openTrue 0 "offer-sdp" pairState01).2 =
      [Event.sent 1 (Msg.signalEnvelope "offer-sdp")] :=
  (C5_signal_relay openTrue 0 "offer-sdp" pairState01
    ⟨0, "a", ConnState.connecting, some 1⟩ (by decide)).2.1 1 rfl rfl

/-- Claim C6, counterexample: a well-formed frame with the unknown type "ping"
produces NO `error` reply (the handler falls through all branches), refuting the
claim that every unknown-type frame receives an `error` reply. -/
theorem C6_counterexample :
    onMessage openTrue 0 (Frame.unknown "ping") pairState01 = (pairState01, []) := rfl

/-- Claim C6 (amended): an unparseable frame receives exactly one `error` reply
(sent unconditionally to the sender) and leaves the registry unchanged; a
well-formed frame with an unknown type is silently ignored — no reply, no
registry change; in neither case does the server close the connection. -/
theorem C6_protocol_faults (openW : Nat → Bool) (ws : Nat) (s : ServerState) :
    onMessage openW ws Frame.invalid s =
        (s, [Event.sent ws (Msg.errorMsg "Invalid payload")]) ∧
      Event.closedConn ws ∉ (onMessage openW ws Frame.invalid s).2 ∧
      (∀ ty, onMessage openW ws (Frame.unknown ty) s = (s, [])) := by
  refine ⟨rfl, ?_, fun ty => rfl⟩
  intro h
  simp [onMessage] at h

/-- Claim C7: `join` is idempotent for a connection already Searching — the
whole call is a no-op: no name update, no slot change, no pairing, no
notification. -/
theorem C7_join_idempotent (openW : Nat → Bool) (ws : Nat) (name : Option String)
    (s : ServerState) (c : ClientData) (hc : mget s.clients ws = some c)
    (hs : c.state = ConnState.searching) :
    handleJoin openW ws name s = (s, []) :=
  handleJoin_already_searching openW ws name s c hc hs

/-- Claim C7, witness: re-joining while 0 is Searching in `waitState01` changes
nothing. -/
theorem C7_witness : handleJoin openTrue 0 (some "zz") waitState01 = (waitState01, []) :=
  C7_join_idempotent openTrue 0 (some "zz") waitState01
    ⟨0, "a", ConnState.searching, none⟩ (by decide) rfl

theorem joinWaitState_props (ws : Nat) (name : Option String) (s : ServerState)
    (c : ClientData) (hc : mget s.clients ws = some c) :
    (joinWaitState ws name s c).waitingUser = some ws ∧
      (∀ a da, mget (joinWaitState ws name s c).clients a = some da →
        ∃ d0, mget s.clients a = some d0 ∧ da.partner = d0.partner) := by
  constructor
  · rfl
  · intro a da hga
    simp only [joinWaitState] at hga
    rw [mget_mset] at hga
    by_cases haw : ws = a
    · rw [if_pos haw] at hga
      injection hga with hga'
      refine ⟨c, haw ▸ hc, ?_⟩
      rw [← hga', joinUpd_partner]
    · rw [if_neg haw] at hga
      exact ⟨da, hga, rfl⟩

/-- Claim C8: a join that finds the MatchSlot occupied by a stale connection
(absent from the registry, or no longer Searching) does not pair against it:
the new arrival replaces it as the slot occupant, no `matched` notification is
sent to anyone, and no partner reference changes. -/
theorem C8_stale_slot (openW : Nat → Bool) (ws : Nat) (name : Option String)
    (s : ServerState) (c : ClientData) (w : Nat)
    (hc : mget s.clients ws = some c) (hs : c.state ≠ ConnState.searching)
    (hw : s.waitingUser = some w)
    (hstale : ∀ d, mget s.clients w = some d → d.state ≠ ConnState.searching) :
    (handleJoin openW ws name s).1.waitingUser = some ws ∧
      (handleJoin openW ws name s).2 = [] ∧
      (∀ a da, mget (handleJoin openW ws name s).1.clients a = some da →
        ∃ d0, mget s.clients a = some d0 ∧ da.partner = d0.partner) := by
  by_cases hne : w = ws
  · subst hne
    rw [handleJoin_wait_self openW w name s c hc hs hw]
    obtain ⟨hq1, hq2⟩ := joinWaitState_props w name s c hc
    exact ⟨hq1, rfl, hq2⟩
  · cases hpd : mget s.clients w with
    | none =>
      rw [handleJoin_wait_stale_gone openW ws name s c w hc hs hw hne hpd]
      obtain ⟨hq1, hq2⟩ := joinWaitState_props ws name s c hc
      exact ⟨hq1, rfl, hq2⟩
    | some pd =>
      rw [handleJoin_wait_stale_state openW ws name s c w pd hc hs hw hne hpd
        (hstale pd hpd)]
      obtain ⟨hq1, hq2⟩ := joinWaitState_props ws name s c hc
      exact ⟨hq1, rfl, hq2⟩

/-- The registry state in which 0 sits in the slot but was marked Connected by a
`connected` ack (a stale occupant), and 1 is freshly connected. -/
def staleSlotState : ServerState :=
  run openTrue
    [Op.connect 0, Op.connect 1, Op.msg 0 (Frame.join (some "a")),
     Op.msg 0 Frame.connectedMsg] initialState

/-- Claim C8, witness: joining against the stale occupant 0 replaces the slot
with 1 and emits nothing. -/
theorem C8_witness :
    (handleJoin openTrue 1 (some "b") staleSlotState).1.waitingUser = some 1 ∧
      (handleJoin openTrue 1 (some "b") staleSlotState).2 = [] :=
  ⟨(C8_stale_slot openTrue 1 (some "b") staleSlotState
      ⟨1, "Anonymous", ConnState.idle, none⟩ 0 (by decide) (by decide) (by decide)
      (fun d hd => by
        have h0 : mget staleSlotState.clients 0 =
            some ⟨0, "a", ConnState.connected, none⟩ := by decide
        rw [h0] at hd
        injection hd with hd'
        rw [← hd']
        decide)).1,
   (C8_stale_slot openTrue 1 (some "b") staleSlotState
      ⟨1, "Anonymous", ConnState.idle, none⟩ 0 (by decide) (by decide) (by decide)
      (fun d hd => by
        have h0 : mget staleSlotState.clients 0 =
            some ⟨0, "a", ConnState.connected, none⟩ := by decide
        rw [h0] at hd
        injection hd with hd'
        rw [← hd']
        decide)).2.1⟩

theorem sendJSON_mem (openW : Nat → Bool) (x : Nat) (msg1 : Msg) (d : Nat) (m : Msg) :
    Event.sent d m ∈ sendJSON openW x msg1 → d = x ∧ openW d = true := by
  by_cases ho : openW x
  · intro h
    simp [sendJSON, ho] at h
    obtain ⟨hd, hm⟩ := h
    exact ⟨hd, hd ▸ ho⟩
  · intro h
    simp [sendJSON, ho] at h

/-- Trace after which 0 and 1 are paired and 1 has re-joined: 1 is the slot
occupant in Searching state while still holding `partner = 0`. -/
def rejoinState : ServerState :=
  run openTrue
    [Op.connect 0, Op.connect 1, Op.msg 0 (Frame.join (some "a")),
     Op.msg 1 (Frame.join (some "b")), Op.msg 1 (Frame.join (some "b"))] initialState

/-- Claim C9, counterexample: in `rejoinState`, connection 0 is paired (state
Connecting, partner 1) and sends `join`; its former partner 1 — who re-joined
and occupies the slot — has its record CHANGED (Searching becomes Connecting)
and RECEIVES a `matched` notification, refuting "the former partner's record is
entirely unchanged and it receives no notification". -/
theorem C9_counterexample :
    mget rejoinState.clients 0 = some ⟨0, "a", ConnState.connecting, some 1⟩ ∧
      mget rejoinState.clients 1 = some ⟨1, "b", ConnState.searching, some 0⟩ ∧
      mget (step openTrue (Op.msg 0 (Frame.join (some "a"))) rejoinState).1.clients 1 =
        some ⟨1, "b", ConnState.connecting, some 0⟩ ∧
      Event.sent 1 (Msg.matched false "a") ∈
        (step openTrue (Op.msg 0 (Frame.join (some "a"))) rejoinState).2 := by
  refine ⟨by decide, by decide, by decide, by decide⟩

/-- Claim C9 (amended): a paired connection (state Connecting or Connected,
partner non-null) that sends `join` is accepted back into matching — it ends up
Searching in the slot or paired anew with a third connection — and the former
partner's record is left entirely unchanged with no notification sent to it,
UNLESS the former partner is itself the current slot occupant in Searching
state (in which case the two are simply re-paired, see the counterexample). -/
theorem C9_rejoin (openW : Nat → Bool) (ws : Nat) (name : Option String)
    (s : ServerState) (c : ClientData) (b : Nat) (bd : ClientData)
    (hc : mget s.clients ws = some c)
    (hst : c.state = ConnState.connecting ∨ c.state = ConnState.connected)
    (_hp : c.partner = some b) (hbw : b ≠ ws)
    (hb : mget s.clients b = some bd)
    (hnotslot : ¬(s.waitingUser = some b ∧ bd.state = ConnState.searching)) :
    mget (handleJoin openW ws name s).1.clients b = some bd ∧
      (∀ m, Event.sent b m ∉ (handleJoin openW ws name s).2) ∧
      (∃ d, mget (handleJoin openW ws name s).1.clients ws = some d ∧
        (((handleJoin openW ws name s).1.waitingUser = some ws ∧
            d.state = ConnState.searching) ∨
          (∃ w, w ≠ b ∧ w ≠ ws ∧ d.partner = some w ∧
            d.state = ConnState.connecting))) := by
  have hs : c.state ≠ ConnState.searching := by
    rcases hst with h | h <;> rw [h] <;> intro hh <;> cases hh
  have waitCase : ∀ hres : handleJoin openW ws name s = (joinWaitState ws name s c, []),
      mget (handleJoin openW ws name s).1.clients b = some bd ∧
        (∀ m, Event.sent b m ∉ (handleJoin openW ws name s).2) ∧
        (∃ d, mget (handleJoin openW ws name s).1.clients ws = some d ∧
          (((handleJoin openW ws name s).1.waitingUser = some ws ∧
              d.state = ConnState.searching) ∨
            (∃ w, w ≠ b ∧ w ≠ ws ∧ d.partner = some w ∧
              d.state = ConnState.connecting))) := by
    intro hres
    rw [hres]
    refine ⟨?_, ?_, ?_⟩
    · simp only [joinWaitState]
      rw [mget_mset, if_neg (fun hh => hbw hh.symm)]
      exact hb
    · intro m hm
      simp at hm
    · refine ⟨joinUpd name c, ?_, Or.inl ⟨rfl, rfl⟩⟩
      simp only [joinWaitState]
      rw [mget_mset, if_pos rfl]
  cases hw : s.waitingUser with
  | none => exact waitCase (handleJoin_wait_empty openW ws name s c hc hs hw)
  | some w =>
    by_cases hne : w = ws
    · rw [hne] at hw
      exact waitCase (handleJoin_wait_self openW ws name s c hc hs hw)
    · cases hpd : mget s.clients w with
      | none => exact waitCase (handleJoin_wait_stale_gone openW ws name s c w hc hs hw hne hpd)
      | some pd =>
        by_cases hps : pd.state = ConnState.searching
        · have hwb : w ≠ b := by
            intro hh
            rw [hh, hb] at hpd
            injection hpd with hpd'
            exact hnotslot ⟨hh ▸ hw, hpd' ▸ hps⟩
          rw [handleJoin_pair openW ws name s c w pd hc hs hw hne hpd hps]
          refine ⟨?_, ?_, ?_⟩
          · rw [mget_joinPairState, if_neg hwb, if_neg (fun hh => hbw hh.symm)]
            exact hb
          · intro m hm
            simp only at hm
            rcases List.mem_append.mp hm with h | h
            · exact hbw (sendJSON_mem openW ws _ b m h).1
            · exact hwb ((sendJSON_mem openW w _ b m h).1).symm
          · refine ⟨pairedJoiner name c w, ?_, Or.inr ⟨w, hwb, hne, rfl, rfl⟩⟩
            rw [mget_joinPairState, if_neg hne, if_pos rfl]
        · exact waitCase (handleJoin_wait_stale_state openW ws name s c w pd hc hs hw hne hpd hps)

/-- Claim C9, witness: 0 (paired with 1, slot empty) re-joins; 1's record stays
exactly as it was. -/
theorem C9_witness :
    mget (handleJoin openTrue 0 (some "a2") pairState01).1.clients 1 =
      some ⟨1, "b", ConnState.connecting, some 0⟩ :=
  (C9_rejoin openTrue 0 (some "a2") pairState01
    ⟨0, "a", ConnState.connecting, some 1⟩ 1 ⟨1, "b", ConnState.connecting, some 0⟩
    (by decide) (Or.inl rfl) rfl (by decide) (by decide) (by decide)).1

theorem handleConnected_snd (ws : Nat) (s : ServerState) :
    (handleConnected ws s).2 = [] := by
  cases hc : mget s.clients ws <;> simp [handleConnected, hc]

theorem join_events_open (openW : Nat → Bool) (ws : Nat) (name : Option String)
    (s : ServerState) (d : Nat) (m : Msg) :
    Event.sent d m ∈ (handleJoin openW ws name s).2 → openW d = true := by
  intro hm
  cases hc : mget s.clients ws with
  | none => rw [handleJoin_no_client openW ws name s hc] at hm; simp at hm
  | some c =>
    by_cases hs : c.state = ConnState.searching
    · rw [handleJoin_already_searching openW ws name s c hc hs] at hm; simp at hm
    · cases hw : s.waitingUser with
      | none => rw [handleJoin_wait_empty openW ws name s c hc hs hw] at hm; simp at hm
      | some w =>
        by_cases hne : w = ws
        · rw [hne] at hw
          rw [handleJoin_wait_self openW ws name s c hc hs hw] at hm
          simp at hm
        · cases hpd : mget s.clients w with
          | none =>
            rw [handleJoin_wait_stale_gone openW ws name s c w hc hs hw hne hpd] at hm
            simp at hm
          | some pd =>
            by_cases hps : pd.state = ConnState.searching
            · rw [handleJoin_pair openW ws name s c w pd hc hs hw hne hpd hps] at hm
              simp only at hm
              rcases List.mem_append.mp hm with h | h
              · exact (sendJSON_mem openW ws _ d m h).2
              · exact (sendJSON_mem openW w _ d m h).2
            · rw [handleJoin_wait_stale_state openW ws name s c w pd hc hs hw hne hpd hps]
                at hm
              simp at hm

theorem signal_events_open (openW : Nat → Bool) (ws : Nat) (p : String)
    (s : ServerState) (d : Nat) (m : Msg) :
    Event.sent d m ∈ (handleSignal openW ws p s).2 → openW d = true := by
  intro hm
  cases hc : mget s.clients ws with
  | none => simp [handleSignal, hc] at hm
  | some c =>
    cases hp : c.partner with
    | none => simp [handleSignal, hc, hp] at hm
    | some q =>
      by_cases ho : openW q
      · simp only [handleSignal, hc, hp, ho, if_true] at hm
        exact (sendJSON_mem openW q _ d m hm).2
      · simp [handleSignal, hc, hp, ho] at hm

theorem disconnect_events_open (openW : Nat → Bool) (ws : Nat) (s : ServerState)
    (d : Nat) (m : Msg) :
    Event.sent d m ∈ (handleDisconnect openW ws s).2 → openW d = true := by
  intro hm
  cases hc : mget s.clients ws with
  | none => rw [handleDisconnect_no_client openW ws s hc] at hm; simp at hm
  | some c =>
    cases hp : c.partner with
    | none => rw [handleDisconnect_no_partner openW ws s c hc hp] at hm; simp at hm
    | some p =>
      cases hpd : mget s.clients p with
      | none => rw [handleDisconnect_partner_gone openW ws s c p hc hp hpd] at hm; simp at hm
      | some pd =>
        rw [handleDisconnect_partner openW ws s c p pd hc hp hpd] at hm
        simp only at hm
        exact (sendJSON_mem openW p _ d m hm).2

/-- A transport predicate under which no connection is open. -/
def openNone : Nat → Bool := fun _ => false

/-- Claim C10, counterexample: an invalid frame from connection 0, whose
transport is NOT open, still gets the `error` reply emitted — the reply goes
through a raw `ws.send` (line 94), not through the guarded `sendJSON`, so a
send is attempted on a non-open transport. -/
theorem C10_counterexample :
    (onMessage openNone 0 Frame.invalid pairState01).2 =
        [Event.sent 0 (Msg.errorMsg "Invalid payload")] ∧
      openNone 0 = false :=
  ⟨rfl, rfl⟩

/-- Claim C10 (amended): every `matched`, `partner-left` and relayed `signal`
message goes through `sendJSON` and is silently skipped when the recipient's
transport is not open — for every registry operation other than an invalid
frame, every emitted send targets an open transport.  (The `error` reply to an
invalid frame is the exception: it is sent unguarded, see the counterexample.) -/
theorem C10_guarded_sends (openW : Nat → Bool) (op : Op) (s : ServerState)
    (hni : ∀ ws, op ≠ Op.msg ws Frame.invalid) :
    ∀ d m, Event.sent d m ∈ (step openW op s).2 → openW d = true := by
  intro d m hmem
  cases op with
  | connect ws => simp [step, handleConnection] at hmem
  | close ws => exact disconnect_events_open openW ws s d m hmem
  | msg ws f =>
    cases f with
    | invalid => exact absurd rfl (hni ws)
    | join name => exact join_events_open openW ws name s d m hmem
    | signal p => exact signal_events_open openW ws p s d m hmem
    | connectedMsg =>
      have h : (step openW (Op.msg ws Frame.connectedMsg) s).2 = [] :=
        handleConnected_snd ws s
      rw [h] at hmem
      simp at hmem
    | unknown ty => simp [step, onMessage] at hmem

/-- Claim C10, witness: applied to the disconnect of 0 from the open pair 0-1,
for the emitted `partner-left` to 1. -/
theorem C10_witness :
    Event.sent 1 Msg.partnerLeft ∈ (step openTrue (Op.close 0) pairState01).2 ∧
      openTrue 1 = true :=
  ⟨by decide,
   C10_guarded_sends openTrue (Op.close 0) pairState01 (fun ws h => by cases h)
     1 Msg.partnerLeft (by decide)⟩

end AnonChat
